import Mathlib

/-!
Shallow embedding of `src/GYM/gym.py` (a Streamlit gym membership and
attendance kiosk) and proofs about its identity-matching, attendance,
registration and deletion logic.  CSV fields are strings (the app loads every
table with `dtype=str` and `fillna("")`), so all record fields are `String`;
face-verification distances are modelled as rationals.
-/

namespace Gym

/-- Fixed match threshold, `DISTANCE_THRESHOLD = 0.6` in gym.py line 28. -/
def DISTANCE_THRESHOLD : ℚ := 6 / 10

/-- Initial best distance in the matching loops, `best_dist = 1e9` in gym.py. -/
def INITIAL_BEST_DIST : ℚ := 1000000000

/-- A row of the Members table (gym.py stores all fields as strings). -/
structure Member where
  id : String
  name : String
  gender : String
  email : String
  mobile : String
  membership : String
  fee : String
  joinDate : String
  imagePath : String
deriving DecidableEq, Repr

/-- A row of the Attendance table; `exitTime = ""` encodes an absent exit time
(gym.py loads the CSV with `fillna("")`, so a missing value reads back as `""`). -/
structure AttendanceRecord where
  id : String
  name : String
  date : String
  entryTime : String
  exitTime : String
  status : String
deriving DecidableEq, Repr

/-- A row of the DeletedMembers table: the archived member row plus `DeletedAt`. -/
structure DeletedMember where
  member : Member
  deletedAt : String
deriving DecidableEq, Repr

/-- Outcome of a successful `DeepFace.verify` call as gym.py consumes it: the
boolean `verified` field and the numeric distance extracted by the key scan
over `"distance"`, `"cosine"`, `"euclidean"` (`none` when no key yielded a
float). -/
structure VerifyRes where
  verified : Bool
  distance : Option ℚ
deriving DecidableEq, Repr

/-- Diagnostics returned by `try_verify_faces`: the raw service result, or the
error dictionary built when the service raised. -/
inductive VerifyDiag where
  | raw (res : VerifyRes)
  | failure (err : String)
deriving DecidableEq, Repr

/-- Embedding of `try_verify_faces` (gym.py lines 127-148).  The external
`DeepFace.verify` call is modelled as an `Except String VerifyRes` value:
either an exception message or a result record.  Returns
`(match, distance, details)`. -/
def try_verify_faces (service : Except String VerifyRes) :
    Bool × Option ℚ × VerifyDiag :=
  match service with
  | .error e => (false, none, .failure e)
  | .ok res =>
    match res.distance with
    | some d => (decide (d ≤ DISTANCE_THRESHOLD), some d, .raw res)
    | none => (res.verified, none, .raw res)

/-- Whether a member's stored photo gets scanned: gym.py skips a row when
`not member_img or not os.path.exists(member_img)`.  The file system is a
parameter `fe`. -/
def readablePhoto (fe : String → Bool) (m : Member) : Bool :=
  (m.imagePath != "") && fe m.imagePath

/-- The matching loop shared verbatim by Attendance-Entry (gym.py 355-375) and
Attendance-Exit (gym.py 421-441): iterate members in listing order, skip
unreadable photos, track the minimum distance seen and its owner, break on the
first `distance <= DISTANCE_THRESHOLD`, or break accepting immediately on
`match` with no distance.  Here `verify m` stands for
`try_verify_faces(temp_path, m.imagePath)` projected to `(match, distance)`;
the accumulator is `(best, best_dist)`. -/
def scanLoop (fe : String → Bool) (verify : Member → Bool × Option ℚ) :
    List Member → Option (Member × Option ℚ) → ℚ → Option (Member × Option ℚ)
  | [], best, _ => best
  | m :: rest, best, bestDist =>
    if readablePhoto fe m then
      match verify m with
      | (mtch, none) =>
        if mtch then some (m, none) else scanLoop fe verify rest best bestDist
      | (_, some d) =>
        let best' := if d < bestDist then some (m, some d) else best
        let bestDist' := if d < bestDist then d else bestDist
        if d ≤ DISTANCE_THRESHOLD then best'
        else scanLoop fe verify rest best' bestDist'
    else scanLoop fe verify rest best bestDist

/-- Identity resolution: the scan followed by the final acceptance test
`is_match = (dist is not None and dist <= DISTANCE_THRESHOLD) or (dist is None and True)`
(gym.py 378-382 and 444-448).  `none` is the "no match" outcome; on an empty
member list gym.py only shows a warning, which is also "no match". -/
def resolve (fe : String → Bool) (verify : Member → Bool × Option ℚ)
    (members : List Member) : Option (Member × Option ℚ) :=
  match scanLoop fe verify members none INITIAL_BEST_DIST with
  | none => none
  | some (m, none) => some (m, none)
  | some (m, some d) =>
    if d ≤ DISTANCE_THRESHOLD then some (m, some d) else none

/-- Acceptance condition for a single member: a distance is present and is at
most the threshold, or the matcher's boolean verdict is true with no distance. -/
def acceptB (verify : Member → Bool × Option ℚ) (m : Member) : Bool :=
  match verify m with
  | (mtch, none) => mtch
  | (_, some d) => decide (d ≤ DISTANCE_THRESHOLD)

/-- Errors of the attendance ledger. -/
inductive AttendanceError where
  | alreadyMarked
  | noOpenEntry
deriving DecidableEq, Repr

/-- The pandas mask
`(attendance["ID"].astype(str) == idstr) & (attendance["Date"] == today)`. -/
def matchesKey (idstr today : String) (r : AttendanceRecord) : Bool :=
  (r.id == idstr) && (r.date == today)

/-- An open record for `(idstr, today)`: the key matches and `ExitTime` is
absent (the `isna` half of gym.py's test is subsumed by `fillna("")`). -/
def isOpenRec (idstr today : String) (r : AttendanceRecord) : Bool :=
  matchesKey idstr today r && (r.exitTime == "")

/-- Embedding of the entry-record creation (gym.py 384-394): reject with
`AlreadyMarked` when any record for `(ID, today)` exists, open or closed;
otherwise append a fresh open record with `Status = "Present"`. -/
def markEntry (att : List AttendanceRecord) (idstr nm today entryT : String) :
    Except AttendanceError (List AttendanceRecord) :=
  if att.any (matchesKey idstr today) then .error .alreadyMarked
  else .ok (att ++ [{ id := idstr, name := nm, date := today,
                      entryTime := entryT, exitTime := "", status := "Present" }])

/-- Close the earliest-indexed open record for `(idstr, today)` — gym.py takes
`open_rows.index[0]` and sets `ExitTime` and `Status` there.  Returns `none`
when no open record exists. -/
def closeFirst (idstr today exitT : String) :
    List AttendanceRecord → Option (List AttendanceRecord)
  | [] => none
  | r :: rest =>
    if isOpenRec idstr today r then
      some ({ r with exitTime := exitT, status := "Exited" } :: rest)
    else (closeFirst idstr today exitT rest).map (fun a => r :: a)

/-- Embedding of the exit-record update (gym.py 450-462): fail with
`NoOpenEntry` when no open record for `(ID, today)` exists, else close the
earliest-indexed one. -/
def markExit (att : List AttendanceRecord) (idstr today exitT : String) :
    Except AttendanceError (List AttendanceRecord) :=
  match closeFirst idstr today exitT att with
  | none => .error .noOpenEntry
  | some att' => .ok att'

/-- The Attendance-Entry flow after a photo was captured (gym.py 350-399):
resolve the identity, and on a match run `markEntry`; on "no match", or when
`markEntry` rejects, the attendance table is left as it was.  Returns the
resolution outcome together with the attendance table afterwards. -/
def entryFlow (fe : String → Bool) (verify : Member → Bool × Option ℚ)
    (members : List Member) (att : List AttendanceRecord) (today entryT : String) :
    Option (Member × Option ℚ) × List AttendanceRecord :=
  match resolve fe verify members with
  | none => (none, att)
  | some (m, d) =>
    (some (m, d),
      match markEntry att m.id m.name today entryT with
      | .ok att' => att'
      | .error _ => att)

/-- The Attendance-Exit flow after a photo was captured (gym.py 417-467):
resolve the identity, and on a match run `markExit`; on "no match", or when
`markExit` rejects, the attendance table is left as it was. -/
def exitFlow (fe : String → Bool) (verify : Member → Bool × Option ℚ)
    (members : List Member) (att : List AttendanceRecord) (today exitT : String) :
    Option (Member × Option ℚ) × List AttendanceRecord :=
  match resolve fe verify members with
  | none => (none, att)
  | some (m, d) =>
    (some (m, d),
      match markExit att m.id today exitT with
      | .ok att' => att'
      | .error _ => att)

/-- Attendance tables reachable from the empty table through successful entry
and exit markings. -/
inductive Reachable : List AttendanceRecord → Prop where
  | empty : Reachable []
  | entry (att att' : List AttendanceRecord) (idstr nm today entryT : String) :
      Reachable att → markEntry att idstr nm today entryT = .ok att' →
      Reachable att'
  | leave (att att' : List AttendanceRecord) (idstr today exitT : String) :
      Reachable att → markExit att idstr today exitT = .ok att' →
      Reachable att'

/-- Model of Python `int(v)` applied to an ID string in `generate_member_id`
(the `try: nums.append(int(v))` loop): `some n` when the string parses as a
(possibly negative) decimal integer, `none` otherwise. -/
def pyInt? (s : String) : Option Int := s.toInt?

/-- Maximum of a list of integers, `none` on the empty list (`max(nums)` is
only reached in gym.py when `nums` is non-empty). -/
def maxIntList : List Int → Option Int
  | [] => none
  | n :: ns =>
    match maxIntList ns with
    | none => some n
    | some m => some (max n m)

/-- The numeric IDs present in the Members table. -/
def memberNums (members : List Member) : List Int :=
  members.filterMap (fun m => pyInt? m.id)

/-- Embedding of `generate_member_id` (gym.py 153-166): `"1"` for an empty
table or no numeric IDs, else `str(max(nums) + 1)`. -/
def generate_member_id (members : List Member) : String :=
  if members.isEmpty then "1"
  else
    match maxIntList (memberNums members) with
    | none => "1"
    | some mx => toString (mx + 1)

/-- Characters kept by the name sanitizer in `save_member_image`:
`c.isalnum() or c in (" ", "_")`. -/
def keepChar (c : Char) : Bool := c.isAlphanum || c == ' ' || c == '_'

/-- Strip leading and trailing spaces.  After `keepChar` filtering the only
whitespace character that can remain is `' '`, so Python `.strip()` reduces to
stripping spaces. -/
def stripSpaces (cs : List Char) : List Char :=
  ((cs.dropWhile (fun c => c == ' ')).reverse.dropWhile (fun c => c == ' ')).reverse

/-- The sanitized name used in the stored photo filename (gym.py 172):
`"".join(c for c in name if c.isalnum() or c in (" ", "_")).strip().replace(" ", "_")`.
Replacing every space by an underscore is the character map at the end. -/
def sanitizeName (nm : List Char) : List Char :=
  (stripSpaces (nm.filter keepChar)).map (fun c => if c == ' ' then '_' else c)

/-- The path computed by `save_member_image` (gym.py 171-182):
`os.path.join(IMG_DIR, f"{member_id}_{safe_name}.jpg")` with
`IMG_DIR = "member_images"`. -/
def member_image_path (memberId nm : List Char) : List Char :=
  "member_images/".data ++ memberId ++ '_' :: (sanitizeName nm ++ ".jpg".data)

/-- Strip leading and trailing whitespace from a list of characters. -/
def stripWS (cs : List Char) : List Char :=
  ((cs.dropWhile Char.isWhitespace).reverse.dropWhile Char.isWhitespace).reverse

/-- Model of Python `str.strip()` as used on `id_input` (gym.py 228): remove
leading and trailing whitespace. -/
def pyStrip (s : String) : String := String.mk (stripWS s.data)

/-- Outcome of a registration attempt: the Members table afterwards, the image
files written during the attempt, and whether a row was registered. -/
structure RegisterOutcome where
  members : List Member
  imageWrites : List String
  registered : Bool
deriving DecidableEq, Repr

/-- Embedding of the Register Member submit handler (gym.py 223-251), after
the required-fields check has passed: compute the member ID
(`id_input.strip() if id_input.strip() else generate_member_id()`), reject a
duplicate ID before any image is written, and otherwise save the photo and
append the new row. -/
def register (members : List Member)
    (idInput nm gender email mobile membership fee joinDate : String) :
    RegisterOutcome :=
  let memberId := if pyStrip idInput == "" then generate_member_id members
                  else pyStrip idInput
  if members.any (fun m => m.id == memberId) then
    { members := members, imageWrites := [], registered := false }
  else
    let imgPath := String.mk (member_image_path memberId.data nm.data)
    let row : Member :=
      { id := memberId, name := nm, gender := gender, email := email,
        mobile := mobile, membership := membership, fee := fee,
        joinDate := joinDate, imagePath := imgPath }
    { members := members ++ [row], imageWrites := [imgPath], registered := true }

/-- The three persisted tables acted on by the Delete Member branch. -/
structure GymState where
  members : List Member
  deletedMembers : List DeletedMember
  attendance : List AttendanceRecord
deriving DecidableEq, Repr

/-- Embedding of the Delete Member branch (gym.py 304-323): take the first
Members row whose ID equals the selection (`.iloc[0]`), append it with a
`DeletedAt` stamp to DeletedMembers, drop every Members row and every
Attendance row with that ID.  The best-effort photo-file removal has no effect
on the three tables and is not part of the state.  The UI only offers IDs
present in the table, so the `none` branch is unreachable there. -/
def deleteMember (s : GymState) (selId : String) (now : String) : GymState :=
  match s.members.find? (fun m => m.id == selId) with
  | none => s
  | some row =>
    { members := s.members.filter (fun m => m.id != selId),
      deletedMembers := s.deletedMembers ++ [{ member := row, deletedAt := now }],
      attendance := s.attendance.filter (fun r => r.id != selId) }

/-- Invariant carried by the scan accumulator: the best distance seen is still
above the threshold (otherwise the loop would already have broken), and the
best candidate, if any, carries a distance above the threshold. -/
def ScanInv (best : Option (Member × Option ℚ)) (bestDist : ℚ) : Prop :=
  DISTANCE_THRESHOLD < bestDist ∧
    (best = none ∨ ∃ m d, best = some (m, some d) ∧ DISTANCE_THRESHOLD < d)

/-- The fresh open record appended by `markEntry`. -/
def newEntryRec (idstr nm today entryT : String) : AttendanceRecord :=
  { id := idstr, name := nm, date := today, entryTime := entryT,
    exitTime := "", status := "Present" }

/-! Concrete fixtures used to instantiate the theorems below. -/

/-- A concrete member row. -/
def wMember : Member :=
  { id := "1", name := "Alice", gender := "Female", email := "a@b.c",
    mobile := "99", membership := "Monthly", fee := "500",
    joinDate := "2024-01-01", imagePath := "member_images/1_Alice.jpg" }

/-- A concrete attendance record with ID "1". -/
def wRec1 : AttendanceRecord :=
  { id := "1", name := "Alice", date := "2024-01-05", entryTime := "09:00:00",
    exitTime := "10:00:00", status := "Exited" }

/-- A concrete attendance record with ID "2". -/
def wRec2 : AttendanceRecord :=
  { id := "2", name := "Bob", date := "2024-01-05", entryTime := "09:30:00",
    exitTime := "", status := "Present" }

/-- A concrete gym state holding `wMember` and two attendance rows. -/
def wState : GymState :=
  { members := [wMember], deletedMembers := [], attendance := [wRec1, wRec2] }

/-- First member of the spec's scan-order scenario (distance 0.8 to the probe). -/
def scenarioMember1 : Member :=
  { id := "1", name := "A", gender := "Male", email := "a@x.y", mobile := "1",
    membership := "Monthly", fee := "500", joinDate := "2024-01-01",
    imagePath := "member_images/1_A.jpg" }

/-- Second member of the spec's scan-order scenario (distance 0.3 to the probe). -/
def scenarioMember2 : Member :=
  { id := "2", name := "B", gender := "Male", email := "b@x.y", mobile := "2",
    membership := "Monthly", fee := "500", joinDate := "2024-01-01",
    imagePath := "member_images/2_B.jpg" }

/-- Service results of the scenario: member "1" is at distance 0.8 from the
probe, member "2" at distance 0.3. -/
def scenarioService (m : Member) : Except String VerifyRes :=
  if m.id == "1" then .ok { verified := false, distance := some (8 / 10) }
  else .ok { verified := true, distance := some (3 / 10) }

/-- The `(match, distance)` pair the scan sees for each scenario member,
obtained through `try_verify_faces`. -/
def scenarioVerify (m : Member) : Bool × Option ℚ :=
  ((try_verify_faces (scenarioService m)).1,
   (try_verify_faces (scenarioService m)).2.1)

/-! Lemmas about the matching scan. -/

lemma scanInv_init : ScanInv none INITIAL_BEST_DIST := by
  refine ⟨by norm_num [DISTANCE_THRESHOLD, INITIAL_BEST_DIST], Or.inl rfl⟩

lemma scanLoop_no_accept (fe : String → Bool) (verify : Member → Bool × Option ℚ)
    (l : List Member) :
    ∀ (best : Option (Member × Option ℚ)) (bestDist : ℚ),
      ScanInv best bestDist →
      (∀ m ∈ l, readablePhoto fe m = true → acceptB verify m = false) →
      scanLoop fe verify l best bestDist = none ∨
        ∃ m d, scanLoop fe verify l best bestDist = some (m, some d) ∧
          DISTANCE_THRESHOLD < d := by
  induction l with
  | nil =>
    intro best bestDist hinv _
    rcases hinv.2 with h | ⟨m, d, hbest, hd⟩
    · left; simp [scanLoop, h]
    · right; exact ⟨m, d, by simp [scanLoop, hbest], hd⟩
  | cons m rest ih =>
    intro best bestDist hinv hno
    by_cases hr : readablePhoto fe m = true
    · have hacc : acceptB verify m = false := hno m (List.mem_cons_self m rest) hr
      rcases hv : verify m with ⟨mtch, dopt⟩
      rcases dopt with _ | d
      · have hm : mtch = false := by simpa [acceptB, hv] using hacc
        subst hm
        have hstep : scanLoop fe verify (m :: rest) best bestDist
            = scanLoop fe verify rest best bestDist := by
          simp [scanLoop, hr, hv]
        rw [hstep]
        exact ih best bestDist hinv
          (fun x hx => hno x (List.mem_cons_of_mem m hx))
      · have hdT : ¬ d ≤ DISTANCE_THRESHOLD := by simpa [acceptB, hv] using hacc
        by_cases hlt : d < bestDist
        · have hstep : scanLoop fe verify (m :: rest) best bestDist
              = scanLoop fe verify rest (some (m, some d)) d := by
            simp [scanLoop, hr, hv, hlt, hdT]
          rw [hstep]
          refine ih (some (m, some d)) d
            ⟨lt_of_not_le hdT, Or.inr ⟨m, d, rfl, lt_of_not_le hdT⟩⟩
            (fun x hx => hno x (List.mem_cons_of_mem m hx))
        · have hstep : scanLoop fe verify (m :: rest) best bestDist
              = scanLoop fe verify rest best bestDist := by
            simp [scanLoop, hr, hv, hlt, hdT]
          rw [hstep]
          exact ih best bestDist hinv
            (fun x hx => hno x (List.mem_cons_of_mem m hx))
    · have hstep : scanLoop fe verify (m :: rest) best bestDist
          = scanLoop fe verify rest best bestDist := by
        simp [scanLoop, hr]
      rw [hstep]
      exact ih best bestDist hinv (fun x hx => hno x (List.mem_cons_of_mem m hx))

lemma scanLoop_first_accept (fe : String → Bool) (verify : Member → Bool × Option ℚ)
    (pre : List Member) :
    ∀ (m : Member) (post : List Member) (best : Option (Member × Option ℚ))
      (bestDist : ℚ),
      ScanInv best bestDist →
      (∀ m' ∈ pre, readablePhoto fe m' = true → acceptB verify m' = false) →
      readablePhoto fe m = true → acceptB verify m = true →
      scanLoop fe verify (pre ++ m :: post) best bestDist
        = some (m, (verify m).2) := by
  induction pre with
  | nil =>
    intro m post best bestDist hinv _ hr hacc
    rcases hv : verify m with ⟨mtch, dopt⟩
    rcases dopt with _ | d
    · have hm : mtch = true := by simpa [acceptB, hv] using hacc
      subst hm
      simp [scanLoop, hr, hv]
    · have hdT : d ≤ DISTANCE_THRESHOLD := by simpa [acceptB, hv] using hacc
      have hlt : d < bestDist := lt_of_le_of_lt hdT hinv.1
      simp [scanLoop, hr, hv, hdT, hlt]
  | cons m' pre' ih =>
    intro m post best bestDist hinv hpre hr hacc
    by_cases hr' : readablePhoto fe m' = true
    · have hacc' : acceptB verify m' = false :=
        hpre m' (List.mem_cons_self m' pre') hr'
      rcases hv : verify m' with ⟨mtch, dopt⟩
      rcases dopt with _ | d
      · have hm : mtch = false := by simpa [acceptB, hv] using hacc'
        subst hm
        have hstep : scanLoop fe verify ((m' :: pre') ++ m :: post) best bestDist
            = scanLoop fe verify (pre' ++ m :: post) best bestDist := by
          simp [scanLoop, hr', hv]
        rw [hstep]
        exact ih m post best bestDist hinv
          (fun x hx => hpre x (List.mem_cons_of_mem m' hx)) hr hacc
      · have hdT : ¬ d ≤ DISTANCE_THRESHOLD := by simpa [acceptB, hv] using hacc'
        by_cases hlt : d < bestDist
        · have hstep : scanLoop fe verify ((m' :: pre') ++ m :: post) best bestDist
              = scanLoop fe verify (pre' ++ m :: post) (some (m', some d)) d := by
            simp [scanLoop, hr', hv, hlt, hdT]
          rw [hstep]
          exact ih m post (some (m', some d)) d
            ⟨lt_of_not_le hdT, Or.inr ⟨m', d, rfl, lt_of_not_le hdT⟩⟩
            (fun x hx => hpre x (List.mem_cons_of_mem m' hx)) hr hacc
        · have hstep : scanLoop fe verify ((m' :: pre') ++ m :: post) best bestDist
              = scanLoop fe verify (pre' ++ m :: post) best bestDist := by
            simp [scanLoop, hr', hv, hlt, hdT]
          rw [hstep]
          exact ih m post best bestDist hinv
            (fun x hx => hpre x (List.mem_cons_of_mem m' hx)) hr hacc
    · have hstep : scanLoop fe verify ((m' :: pre') ++ m :: post) best bestDist
          = scanLoop fe verify (pre' ++ m :: post) best bestDist := by
        simp [scanLoop, hr']
      rw [hstep]
      exact ih m post best bestDist hinv
        (fun x hx => hpre x (List.mem_cons_of_mem m' hx)) hr hacc

lemma resolve_no_accept (fe : String → Bool) (verify : Member → Bool × Option ℚ)
    (l : List Member)
    (h : ∀ m ∈ l, readablePhoto fe m = true → acceptB verify m = false) :
    resolve fe verify l = none := by
  rcases scanLoop_no_accept fe verify l none INITIAL_BEST_DIST scanInv_init h with
    h0 | ⟨m, d, h0, hd⟩
  · simp [resolve, h0]
  · simp [resolve, h0, not_le.2 hd]

lemma resolve_first_accept (fe : String → Bool) (verify : Member → Bool × Option ℚ)
    (pre : List Member) (m : Member) (post : List Member)
    (hpre : ∀ m' ∈ pre, readablePhoto fe m' = true → acceptB verify m' = false)
    (hr : readablePhoto fe m = true) (hacc : acceptB verify m = true) :
    resolve fe verify (pre ++ m :: post) = some (m, (verify m).2) := by
  have h0 := scanLoop_first_accept fe verify pre m post none INITIAL_BEST_DIST
    scanInv_init hpre hr hacc
  rcases hv : verify m with ⟨mtch, dopt⟩
  rcases dopt with _ | d
  · rw [hv] at h0; simp [resolve, h0, hv]
  · have hdT : d ≤ DISTANCE_THRESHOLD := by simpa [acceptB, hv] using hacc
    rw [hv] at h0; simp [resolve, h0, hv, hdT]

/-- Decompose a list at the first element satisfying a decidable predicate. -/
lemma exists_first_split {α : Type} (p : α → Prop) [DecidablePred p] :
    ∀ (l : List α), (∃ x ∈ l, p x) →
      ∃ pre x post, l = pre ++ x :: post ∧ p x ∧ ∀ y ∈ pre, ¬ p y := by
  intro l
  induction l with
  | nil => rintro ⟨x, hx, _⟩; cases hx
  | cons a t ih =>
    intro hex
    by_cases ha : p a
    · exact ⟨[], a, t, rfl, ha, by simp⟩
    · have hext : ∃ x ∈ t, p x := by
        rcases hex with ⟨x, hx, hpx⟩
        rcases List.mem_cons.1 hx with rfl | hx
        · exact absurd hpx ha
        · exact ⟨x, hx, hpx⟩
      obtain ⟨pre, x, post, hl, hpx, hpre⟩ := ih hext
      refine ⟨a :: pre, x, post, by simp [hl], hpx, ?_⟩
      intro y hy
      rcases List.mem_cons.1 hy with rfl | hy
      · exact ha
      · exact hpre y hy

lemma resolve_isSome_iff (fe : String → Bool) (verify : Member → Bool × Option ℚ)
    (l : List Member) :
    (resolve fe verify l).isSome = true ↔
      ∃ m ∈ l, readablePhoto fe m = true ∧ acceptB verify m = true := by
  constructor
  · intro h
    by_contra hno
    push_neg at hno
    have h' : ∀ m ∈ l, readablePhoto fe m = true → acceptB verify m = false := by
      intro m hm hr
      rcases Bool.eq_false_or_eq_true (acceptB verify m) with hb | hb
      · exact absurd hb (hno m hm hr)
      · exact hb
    rw [resolve_no_accept fe verify l h'] at h
    simp at h
  · rintro ⟨m, hm, hr, hacc⟩
    obtain ⟨pre, x, post, hl, hx, hpre⟩ :=
      exists_first_split
        (fun m => readablePhoto fe m = true ∧ acceptB verify m = true) l
        ⟨m, hm, hr, hacc⟩
    have hpre' : ∀ y ∈ pre, readablePhoto fe y = true → acceptB verify y = false := by
      intro y hy hry
      rcases Bool.eq_false_or_eq_true (acceptB verify y) with hb | hb
      · exact absurd ⟨hry, hb⟩ (hpre y hy)
      · exact hb
    subst hl
    rw [resolve_first_accept fe verify pre x post hpre' hx.1 hx.2]
    simp

lemma resolve_some_dist_le (fe : String → Bool) (verify : Member → Bool × Option ℚ)
    (l : List Member) (m : Member) (d : ℚ)
    (h : resolve fe verify l = some (m, some d)) : d ≤ DISTANCE_THRESHOLD := by
  unfold resolve at h
  rcases h0 : scanLoop fe verify l none INITIAL_BEST_DIST with _ | ⟨m', dopt⟩
  · rw [h0] at h; simp at h
  · rw [h0] at h
    rcases dopt with _ | d'
    · simp at h
    · by_cases hle : d' ≤ DISTANCE_THRESHOLD
      · simp [hle] at h
        rcases h with ⟨-, rfl⟩
        exact hle
      · simp [hle] at h

lemma entryFlow_fst (fe : String → Bool) (verify : Member → Bool × Option ℚ)
    (members : List Member) (att : List AttendanceRecord) (today entryT : String) :
    (entryFlow fe verify members att today entryT).1 = resolve fe verify members := by
  rcases hres : resolve fe verify members with _ | ⟨m, d⟩ <;>
    simp [entryFlow, hres]

lemma exitFlow_fst (fe : String → Bool) (verify : Member → Bool × Option ℚ)
    (members : List Member) (att : List AttendanceRecord) (today exitT : String) :
    (exitFlow fe verify members att today exitT).1 = resolve fe verify members := by
  rcases hres : resolve fe verify members with _ | ⟨m, d⟩ <;>
    simp [exitFlow, hres]

/-! Lemmas about the attendance ledger. -/

lemma markEntry_error_iff (att : List AttendanceRecord) (idstr nm today t : String) :
    markEntry att idstr nm today t = .error .alreadyMarked ↔
      ∃ r ∈ att, matchesKey idstr today r = true := by
  unfold markEntry
  by_cases h : att.any (matchesKey idstr today) = true
  · simp [h]
    exact List.any_eq_true.1 h
  · have h' : att.any (matchesKey idstr today) = false := by
      cases hb : att.any (matchesKey idstr today)
      · rfl
      · exact absurd hb h
    simp [h']
    intro r hr
    rcases Bool.eq_false_or_eq_true (matchesKey idstr today r) with hb | hb
    · exact absurd (List.any_eq_true.2 ⟨r, hr, hb⟩) h
    · exact hb

lemma markEntry_ok (att : List AttendanceRecord) (idstr nm today t : String)
    (h : ∀ r ∈ att, matchesKey idstr today r = false) :
    markEntry att idstr nm today t = .ok (att ++ [newEntryRec idstr nm today t]) := by
  unfold markEntry newEntryRec
  have h' : att.any (matchesKey idstr today) = false := by
    cases hb : att.any (matchesKey idstr today)
    · rfl
    · rcases List.any_eq_true.1 hb with ⟨r, hr, hpr⟩
      rw [h r hr] at hpr; cases hpr
  simp [h']

lemma markEntry_ok_inv (att att' : List AttendanceRecord) (idstr nm today t : String)
    (h : markEntry att idstr nm today t = .ok att') :
    att' = att ++ [newEntryRec idstr nm today t] ∧
      ∀ r ∈ att, matchesKey idstr today r = false := by
  unfold markEntry at h
  by_cases hb : att.any (matchesKey idstr today) = true
  · simp [hb] at h
  · have h' : att.any (matchesKey idstr today) = false := by
      cases hb2 : att.any (matchesKey idstr today)
      · rfl
      · exact absurd hb2 hb
    simp [h'] at h
    refine ⟨h.symm, ?_⟩
    intro r hr
    rcases Bool.eq_false_or_eq_true (matchesKey idstr today r) with hbm | hbm
    · exact absurd (List.any_eq_true.2 ⟨r, hr, hbm⟩) hb
    · exact hbm

lemma closeFirst_isSome_iff (idstr today t : String) (att : List AttendanceRecord) :
    (closeFirst idstr today t att).isSome = true ↔
      ∃ r ∈ att, isOpenRec idstr today r = true := by
  induction att with
  | nil => simp [closeFirst]
  | cons r rest ih =>
    by_cases h : isOpenRec idstr today r = true
    · simp [closeFirst, h]
    · have h' : isOpenRec idstr today r = false := by
        cases hb : isOpenRec idstr today r
        · rfl
        · exact absurd hb h
      simp [closeFirst, h', ih]

lemma closeFirst_first (idstr today t : String) (pre : List AttendanceRecord) :
    ∀ (r : AttendanceRecord) (post : List AttendanceRecord),
      (∀ r' ∈ pre, isOpenRec idstr today r' = false) →
      isOpenRec idstr today r = true →
      closeFirst idstr today t (pre ++ r :: post)
        = some (pre ++ { r with exitTime := t, status := "Exited" } :: post) := by
  induction pre with
  | nil =>
    intro r post _ hr
    simp [closeFirst, hr]
  | cons a pre' ih =>
    intro r post hpre hr
    have ha : isOpenRec idstr today a = false := hpre a (List.mem_cons_self a pre')
    have := ih r post (fun x hx => hpre x (List.mem_cons_of_mem a hx)) hr
    simp [closeFirst, ha, this]

lemma closeFirst_countP_le (id0 d0 t : String) (att : List AttendanceRecord) :
    ∀ (att' : List AttendanceRecord),
      closeFirst id0 d0 t att = some att' →
      ∀ idstr today,
        att'.countP (isOpenRec idstr today) ≤ att.countP (isOpenRec idstr today) := by
  induction att with
  | nil => intro att' h; simp [closeFirst] at h
  | cons r rest ih =>
    intro att' h idstr today
    by_cases hr : isOpenRec id0 d0 r = true
    · simp [closeFirst, hr] at h
      subst h
      rw [List.countP_cons, List.countP_cons]
      have hstep : (if isOpenRec idstr today { r with exitTime := t, status := "Exited" } then 1 else 0)
          ≤ (if isOpenRec idstr today r then 1 else 0) := by
        by_cases hu : isOpenRec idstr today { r with exitTime := t, status := "Exited" } = true
        · have hex : r.exitTime = "" := by
            have := hr
            unfold isOpenRec matchesKey at this
            simp at this
            exact this.2
          have hro : isOpenRec idstr today r = true := by
            unfold isOpenRec matchesKey at hu ⊢
            simp at hu ⊢
            exact ⟨hu.1, hex⟩
          simp [hu, hro]
        · simp [hu]
      omega
    · have hr' : isOpenRec id0 d0 r = false := by
        cases hb : isOpenRec id0 d0 r
        · rfl
        · exact absurd hb hr
      simp [closeFirst, hr'] at h
      rcases h with ⟨rest', hrest, hcons⟩
      subst hcons
      rw [List.countP_cons, List.countP_cons]
      have := ih rest' hrest idstr today
      omega

lemma markExit_ok_iff (att att' : List AttendanceRecord) (idstr today t : String) :
    markExit att idstr today t = .ok att' ↔
      closeFirst idstr today t att = some att' := by
  unfold markExit
  rcases h : closeFirst idstr today t att with _ | a <;> simp [h]

lemma reachable_open_le_one (att : List AttendanceRecord) (h : Reachable att) :
    ∀ idstr today, att.countP (isOpenRec idstr today) ≤ 1 := by
  induction h with
  | empty => intro _ _; simp
  | entry att0 att' id0 nm0 today0 t0 _ heq ih =>
    intro idstr today
    obtain ⟨hatt', hno⟩ := markEntry_ok_inv att0 att' id0 nm0 today0 t0 heq
    subst hatt'
    rw [List.countP_append, List.countP_cons, List.countP_nil]
    by_cases hu : isOpenRec idstr today (newEntryRec id0 nm0 today0 t0) = true
    · have hkey : id0 = idstr ∧ today0 = today := by
        unfold isOpenRec matchesKey newEntryRec at hu
        simp at hu
        exact hu
      have hzero : att0.countP (isOpenRec idstr today) = 0 := by
        rw [List.countP_eq_zero]
        intro r hr
        rcases hkey with ⟨rfl, rfl⟩
        have := hno r hr
        unfold isOpenRec
        simp [this]
      simp [hu, hzero]
    · have := ih idstr today
      simp [hu]
      omega
  | leave att0 att' id0 today0 t0 _ heq ih =>
    intro idstr today
    have hclose := (markExit_ok_iff att0 att' id0 today0 t0).1 heq
    exact le_trans (closeFirst_countP_le id0 today0 t0 att0 att' hclose idstr today)
      (ih idstr today)

/-! Lemmas about ID generation and registration. -/

lemma maxIntList_eq_none_iff (l : List Int) : maxIntList l = none ↔ l = [] := by
  cases l with
  | nil => simp [maxIntList]
  | cons a t =>
    unfold maxIntList
    rcases maxIntList t with _ | m <;> simp

lemma maxIntList_le (l : List Int) :
    ∀ (mx : Int), maxIntList l = some mx → ∀ n ∈ l, n ≤ mx := by
  induction l with
  | nil => intro mx h; simp [maxIntList] at h
  | cons a t ih =>
    intro mx h n hn
    unfold maxIntList at h
    rcases ht : maxIntList t with _ | m
    · rw [ht] at h
      simp at h
      subst h
      rcases List.mem_cons.1 hn with rfl | hn
      · exact le_refl n
      · rw [(maxIntList_eq_none_iff t).1 ht] at hn
        cases hn
    · rw [ht] at h
      simp at h
      subst h
      rcases List.mem_cons.1 hn with rfl | hn
      · exact le_max_left n m
      · exact le_trans (ih m ht n hn) (le_max_right a m)

/-- The generated ID is the decimal representation of an integer strictly
greater than every numeric ID present in the table. -/
lemma generate_member_id_gt (members : List Member) :
    ∃ g : Int, generate_member_id members = toString g ∧
      ∀ m ∈ members, ∀ n : Int, pyInt? m.id = some n → n < g := by
  unfold generate_member_id
  by_cases he : members.isEmpty = true
  · refine ⟨1, by simp [he]; rfl, ?_⟩
    intro m hm
    rw [List.isEmpty_iff] at he
    subst he
    cases hm
  · have he' : members.isEmpty = false := by
      cases hb : members.isEmpty
      · rfl
      · exact absurd hb he
    rcases hmx : maxIntList (memberNums members) with _ | mx
    · refine ⟨1, by simp [he', hmx]; rfl, ?_⟩
      intro m hm n hn
      exfalso
      have hmem : n ∈ memberNums members := List.mem_filterMap.2 ⟨m, hm, hn⟩
      rw [(maxIntList_eq_none_iff (memberNums members)).1 hmx] at hmem
      cases hmem
    · refine ⟨mx + 1, by simp [he', hmx], ?_⟩
      intro m hm n hn
      have hmem : n ∈ memberNums members := List.mem_filterMap.2 ⟨m, hm, hn⟩
      have := maxIntList_le (memberNums members) mx hmx n hmem
      omega

/-! Lemmas about the photo filename sanitizer. -/

lemma mem_stripSpaces (l : List Char) (c : Char) (h : c ∈ stripSpaces l) : c ∈ l := by
  unfold stripSpaces at h
  rw [List.mem_reverse] at h
  have h1 := (List.dropWhile_sublist (fun c => c == ' ')).subset h
  rw [List.mem_reverse] at h1
  exact (List.dropWhile_sublist (fun c => c == ' ')).subset h1

lemma sanitizeName_mem (nm : List Char) :
    ∀ c ∈ sanitizeName nm, c.isAlphanum = true ∨ c = '_' := by
  intro c hc
  unfold sanitizeName at hc
  rcases List.mem_map.1 hc with ⟨c0, hc0, rfl⟩
  have h1 : c0 ∈ nm.filter keepChar := mem_stripSpaces _ c0 hc0
  have h2 : keepChar c0 = true := (List.mem_filter.1 h1).2
  unfold keepChar at h2
  simp only [Bool.or_eq_true, beq_iff_eq] at h2
  by_cases hsp : c0 = ' '
  · right; simp [hsp]
  · have : (if c0 == ' ' then '_' else c0) = c0 := by simp [hsp]
    rw [this]
    rcases h2 with (h2 | h2) | h2
    · exact Or.inl h2
    · exact absurd h2 hsp
    · exact Or.inr h2

lemma dropWhile_eq_self_of (p : Char → Bool) (l : List Char)
    (h : ∀ c ∈ l, p c = false) : l.dropWhile p = l := by
  cases l with
  | nil => rfl
  | cons a t =>
    rw [List.dropWhile_cons]
    simp [h a (List.mem_cons_self a t)]

lemma stripSpaces_eq_self (l : List Char) (h : ∀ c ∈ l, (c == ' ') = false) :
    stripSpaces l = l := by
  unfold stripSpaces
  rw [dropWhile_eq_self_of _ l h]
  rw [dropWhile_eq_self_of _ l.reverse (fun c hc => h c (List.mem_reverse.1 hc))]
  exact List.reverse_reverse l

lemma sanitizeName_id_of_alnum (nm : List Char)
    (h : ∀ c ∈ nm, c.isAlphanum = true) : sanitizeName nm = nm := by
  unfold sanitizeName
  have hsp : ∀ c ∈ nm, (c == ' ') = false := by
    intro c hc
    have := h c hc
    cases hb : (c == ' ')
    · rfl
    · rw [beq_iff_eq] at hb
      subst hb
      exact absurd this (by decide)
  have hfil : nm.filter keepChar = nm := by
    rw [List.filter_eq_self]
    intro c hc
    unfold keepChar
    simp [h c hc]
  rw [hfil, stripSpaces_eq_self nm hsp]
  calc nm.map (fun c => if c == ' ' then '_' else c)
      = nm.map id := List.map_congr_left (fun c hc => by simp [hsp c hc])
    _ = nm := List.map_id nm

/-! The claims. -/

/-- C5: for every modelled service outcome, `try_verify_faces` returns a
`(isMatch, distance, diagnostics)` triple (it is a total function, so it never
propagates a crash): a raised service exception yields `isMatch = false`,
no distance and the error as diagnostics; a numeric distance makes
`isMatch` exactly `distance ≤ 0.6`, ignoring the service's boolean verdict;
with no numeric distance, `isMatch` is the service's boolean verdict. -/
theorem claim_C5 (service : Except String VerifyRes) :
    (∀ e, service = .error e →
      try_verify_faces service = (false, none, .failure e)) ∧
    (∀ res d, service = .ok res → res.distance = some d →
      try_verify_faces service = (decide (d ≤ DISTANCE_THRESHOLD), some d, .raw res)) ∧
    (∀ res, service = .ok res → res.distance = none →
      try_verify_faces service = (res.verified, none, .raw res)) := by
  refine ⟨?_, ?_, ?_⟩
  · rintro e rfl; rfl
  · rintro res d rfl hd; simp [try_verify_faces, hd]
  · rintro res rfl hd; simp [try_verify_faces, hd]

/-- Witness for C5 at a concrete failing service call. -/
theorem claim_C5_witness :
    try_verify_faces (.error "service down")
      = (false, none, .failure "service down") :=
  (claim_C5 (.error "service down")).1 "service down" rfl

/-- C6: deleting the member found for the selected ID leaves no Members row
with that ID, appends exactly the archived row plus the deletion timestamp to
DeletedMembers, removes every attendance record with that ID, and keeps all
attendance records (and member rows) of other IDs. -/
theorem claim_C6 (s : GymState) (selId now : String) (row : Member)
    (h : s.members.find? (fun m => m.id == selId) = some row) :
    (∀ m ∈ (deleteMember s selId now).members, m.id ≠ selId) ∧
    (deleteMember s selId now).deletedMembers
      = s.deletedMembers ++ [{ member := row, deletedAt := now }] ∧
    (∀ r ∈ (deleteMember s selId now).attendance, r.id ≠ selId) ∧
    (∀ r ∈ s.attendance, r.id ≠ selId → r ∈ (deleteMember s selId now).attendance) ∧
    (∀ m ∈ s.members, m.id ≠ selId → m ∈ (deleteMember s selId now).members) := by
  simp only [deleteMember, h]
  refine ⟨?_, trivial, ?_, ?_, ?_⟩
  · intro m hm
    have := (List.mem_filter.1 hm).2
    simpa using this
  · intro r hr
    have := (List.mem_filter.1 hr).2
    simpa using this
  · intro r hr hne
    exact List.mem_filter.2 ⟨hr, by simpa using hne⟩
  · intro m hm hne
    exact List.mem_filter.2 ⟨hm, by simpa using hne⟩

/-- Witness for C6: deleting member "1" from the concrete state archives the
member row with the timestamp. -/
theorem claim_C6_witness :
    (deleteMember wState "1" "2024-02-02 10:00:00").deletedMembers
      = [{ member := wMember, deletedAt := "2024-02-02 10:00:00" }] :=
  (claim_C6 wState "1" "2024-02-02 10:00:00" wMember (by decide)).2.1

/-- C7: with an empty member set, or when no scanned member has a non-empty
stored photo path pointing at an existing file, identity resolution is
unconditionally "no match", whatever the probe's verification outcomes are. -/
theorem claim_C7 (fe : String → Bool) (verify : Member → Bool × Option ℚ)
    (members : List Member)
    (h : members = [] ∨ ∀ m ∈ members, readablePhoto fe m = false) :
    resolve fe verify members = none := by
  apply resolve_no_accept
  intro m hm hr
  rcases h with rfl | h
  · cases hm
  · rw [h m hm] at hr; cases hr

/-- Witness for C7: the empty member set yields "no match" even under a
verifier that would accept everyone. -/
theorem claim_C7_witness :
    resolve (fun _ => true) (fun _ => (true, some (1 / 10))) [] = none :=
  claim_C7 (fun _ => true) (fun _ => (true, some (1 / 10))) [] (Or.inl rfl)

/-- C9: the stored photo path is the deterministic function
`member_images/{memberID}_{sanitizedName}.jpg` of the ID and name alone (so a
second call with the same ID and name yields the same path and overwrites);
every character of the sanitized name is alphanumeric or an underscore (only
alphanumerics, spaces and underscores are kept, and spaces become
underscores); a purely alphanumeric name is kept unchanged; and a name with
leading/trailing/internal spaces is stripped and mapped to underscores. -/
theorem claim_C9 (memberId nm : List Char) :
    member_image_path memberId nm
      = "member_images/".data ++ memberId ++ '_' :: (sanitizeName nm ++ ".jpg".data) ∧
    (∀ c ∈ sanitizeName nm, c.isAlphanum = true ∨ c = '_') ∧
    ((∀ c ∈ nm, c.isAlphanum = true) → sanitizeName nm = nm) ∧
    sanitizeName " John  Doe ".data = "John__Doe".data :=
  ⟨rfl, sanitizeName_mem nm, sanitizeName_id_of_alnum nm, by decide⟩

/-- Witness for C9 on a concrete alphanumeric name. -/
theorem claim_C9_witness : sanitizeName "AB".data = "AB".data :=
  (claim_C9 [] "AB".data).2.2.1 (by decide)

/-- C10: a registration with an explicit ID that already exists is rejected
atomically — the Members table is returned unchanged and no image file is
written (the duplicate check precedes the image save). -/
theorem claim_C10 (members : List Member)
    (idInput nm gender email mobile membership fee joinDate : String)
    (hne : pyStrip idInput ≠ "")
    (hdup : ∃ m ∈ members, m.id = pyStrip idInput) :
    register members idInput nm gender email mobile membership fee joinDate
      = { members := members, imageWrites := [], registered := false } := by
  have hid : (pyStrip idInput == "") = false := by
    rw [beq_eq_false_iff_ne]; exact hne
  have hany : members.any (fun m => m.id == pyStrip idInput) = true := by
    rcases hdup with ⟨m, hm, he⟩
    exact List.any_eq_true.2 ⟨m, hm, by simp [he]⟩
  simp [register, hid, hany]

/-- Witness for C10: re-registering the existing ID "1" changes nothing and
writes no image. -/
theorem claim_C10_witness :
    register [wMember] "1" "Eve" "Female" "e@f.g" "77" "Yearly" "5000" "2024-03-03"
      = { members := [wMember], imageWrites := [], registered := false } :=
  claim_C10 [wMember] "1" "Eve" "Female" "e@f.g" "77" "Yearly" "5000" "2024-03-03"
    (by decide) (by decide)

/-- C1: for every probe (abstracted as the per-member verification outcome),
file system and member set, the attendance Entry and Exit flows return a
member as a match exactly when some scanned member's distance is at most 0.6,
or the matcher returned `isMatch = true` with no distance for some scanned
member; otherwise the outcome is "no match" and the attendance table is left
unchanged. -/
theorem claim_C1 (fe : String → Bool) (verify : Member → Bool × Option ℚ)
    (members : List Member) (att : List AttendanceRecord) (today t : String) :
    ((entryFlow fe verify members att today t).1.isSome = true ↔
      ∃ m ∈ members, readablePhoto fe m = true ∧ acceptB verify m = true) ∧
    ((exitFlow fe verify members att today t).1.isSome = true ↔
      ∃ m ∈ members, readablePhoto fe m = true ∧ acceptB verify m = true) ∧
    ((entryFlow fe verify members att today t).1 = none →
      (entryFlow fe verify members att today t).2 = att) ∧
    ((exitFlow fe verify members att today t).1 = none →
      (exitFlow fe verify members att today t).2 = att) := by
  refine ⟨?_, ?_, ?_, ?_⟩
  · rw [entryFlow_fst]
    exact resolve_isSome_iff fe verify members
  · rw [exitFlow_fst]
    exact resolve_isSome_iff fe verify members
  · intro h
    rw [entryFlow_fst] at h
    simp [entryFlow, h]
  · intro h
    rw [exitFlow_fst] at h
    simp [exitFlow, h]

/-- Witness for C1: with no photo readable, the Entry flow writes nothing. -/
theorem claim_C1_witness :
    (entryFlow (fun _ => false) (fun _ => (true, none)) [wMember] []
      "2024-01-01" "08:00:00").2 = [] :=
  (claim_C1 (fun _ => false) (fun _ => (true, none)) [wMember] []
    "2024-01-01" "08:00:00").2.2.1 (by decide)

/-- C2: the resolver scans in listing order and stops at the first member
whose distance is at most the threshold (or the first boolean match with no
distance), returning that member; a member returned with a distance always
has distance at most the threshold (after a full scan the best-seen candidate
is accepted only under that test); and on the spec's scenario — member "1" at
distance 0.8, member "2" at distance 0.3, scan order 1 then 2 — the resolver
returns member "2". -/
theorem claim_C2 (fe : String → Bool) (verify : Member → Bool × Option ℚ)
    (pre post l : List Member) (m m' : Member) (d : ℚ) :
    ((∀ x ∈ pre, readablePhoto fe x = true → acceptB verify x = false) →
      readablePhoto fe m = true → acceptB verify m = true →
      resolve fe verify (pre ++ m :: post) = some (m, (verify m).2)) ∧
    (resolve fe verify l = some (m', some d) → d ≤ DISTANCE_THRESHOLD) ∧
    resolve (fun _ => true) scenarioVerify [scenarioMember1, scenarioMember2]
      = some (scenarioMember2, some (3 / 10)) := by
  refine ⟨?_, ?_, ?_⟩
  · intro hpre hr hacc
    exact resolve_first_accept fe verify pre m post hpre hr hacc
  · intro h
    exact resolve_some_dist_le fe verify l m' d h
  · simp +decide only [resolve, scanLoop, scenarioVerify, scenarioService,
      try_verify_faces, readablePhoto, scenarioMember1, scenarioMember2]
    norm_num [DISTANCE_THRESHOLD, INITIAL_BEST_DIST]

/-- Witness for C2: a single member accepted through the boolean-only path is
returned at once. -/
theorem claim_C2_witness :
    resolve (fun _ => true) (fun _ => (true, none)) [wMember]
      = some (wMember, none) :=
  (claim_C2 (fun _ => true) (fun _ => (true, none)) [] [] [] wMember wMember 0).1
    (fun x hx => absurd hx (List.not_mem_nil x)) (by decide) rfl

/-- C3: `markEntry` fails with `AlreadyMarked` exactly when any record for
`(ID, date)` exists, open or closed, and otherwise appends exactly one open
record (`EntryTime` the current time, `ExitTime` absent, `Status = Present`);
a second call for the same `(ID, date)` therefore fails and exactly one
record for the key remains; and along any run of the ledger from the empty
table, at most one open record per `(ID, date)` ever exists. -/
theorem claim_C3 :
    (∀ att idstr nm today t,
      (markEntry att idstr nm today t = .error .alreadyMarked ↔
        ∃ r ∈ att, matchesKey idstr today r = true) ∧
      ((∀ r ∈ att, matchesKey idstr today r = false) →
        markEntry att idstr nm today t
          = .ok (att ++ [newEntryRec idstr nm today t]))) ∧
    (∀ att att' idstr nm nm' today t t',
      markEntry att idstr nm today t = .ok att' →
      markEntry att' idstr nm' today t' = .error .alreadyMarked ∧
      att'.countP (matchesKey idstr today) = 1) ∧
    (∀ att, Reachable att → ∀ idstr today,
      att.countP (isOpenRec idstr today) ≤ 1) := by
  refine ⟨?_, ?_, ?_⟩
  · intro att idstr nm today t
    exact ⟨markEntry_error_iff att idstr nm today t,
      markEntry_ok att idstr nm today t⟩
  · intro att att' idstr nm nm' today t t' h
    obtain ⟨rfl, hno⟩ := markEntry_ok_inv att att' idstr nm today t h
    constructor
    · refine (markEntry_error_iff _ idstr nm' today t').2
        ⟨newEntryRec idstr nm today t, ?_, ?_⟩
      · simp
      · simp [matchesKey, newEntryRec]
    · rw [List.countP_append]
      have h0 : att.countP (matchesKey idstr today) = 0 :=
        List.countP_eq_zero.2 (fun r hr => by simp [hno r hr])
      have h1 : List.countP (matchesKey idstr today) [newEntryRec idstr nm today t] = 1 := by
        simp [List.countP_cons, matchesKey, newEntryRec]
      omega
  · exact fun att h => reachable_open_le_one att h

/-- Witness for C3: marking entry twice for ID "5" on the same date — the
second call fails and one record for the key remains. -/
theorem claim_C3_witness :
    markEntry [newEntryRec "5" "Eve" "2024-01-01" "10:00:00"] "5" "Eve"
      "2024-01-01" "18:00:00" = .error .alreadyMarked ∧
    List.countP (matchesKey "5" "2024-01-01")
      [newEntryRec "5" "Eve" "2024-01-01" "10:00:00"] = 1 :=
  claim_C3.2.1 [] [newEntryRec "5" "Eve" "2024-01-01" "10:00:00"] "5" "Eve"
    "Eve" "2024-01-01" "10:00:00" "18:00:00" rfl

/-- C4: `markExit` succeeds exactly when an open record for `(ID, date)`
exists, failing with `NoOpenEntry` otherwise; on success it closes the
earliest-indexed open record, setting its `ExitTime` and `Status := Exited`
while keeping its other fields and leaving every other record — earlier and
later — untouched. -/
theorem claim_C4 (att : List AttendanceRecord) (idstr today t : String) :
    ((∃ att', markExit att idstr today t = .ok att') ↔
      ∃ r ∈ att, isOpenRec idstr today r = true) ∧
    (∀ pre r post, att = pre ++ r :: post →
      (∀ r' ∈ pre, isOpenRec idstr today r' = false) →
      isOpenRec idstr today r = true →
      markExit att idstr today t
        = .ok (pre ++ { r with exitTime := t, status := "Exited" } :: post)) := by
  constructor
  · constructor
    · rintro ⟨att', h⟩
      have hc := (markExit_ok_iff att att' idstr today t).1 h
      have hsome : (closeFirst idstr today t att).isSome = true := by
        rw [hc]; rfl
      exact (closeFirst_isSome_iff idstr today t att).1 hsome
    · intro hex
      have hsome := (closeFirst_isSome_iff idstr today t att).2 hex
      rcases Option.isSome_iff_exists.1 hsome with ⟨att', ha⟩
      exact ⟨att', (markExit_ok_iff att att' idstr today t).2 ha⟩
  · intro pre r post hatt hpre hr
    subst hatt
    exact (markExit_ok_iff _ _ idstr today t).2
      (closeFirst_first idstr today t pre r post hpre hr)

/-- Witness for C4: closing the single open record for ID "5". -/
theorem claim_C4_witness :
    markExit [newEntryRec "5" "Eve" "2024-01-01" "10:00:00"] "5" "2024-01-01"
      "18:00:00"
      = .ok [{ newEntryRec "5" "Eve" "2024-01-01" "10:00:00" with
               exitTime := "18:00:00", status := "Exited" }] :=
  (claim_C4 [newEntryRec "5" "Eve" "2024-01-01" "10:00:00"] "5" "2024-01-01"
    "18:00:00").2 [] (newEntryRec "5" "Eve" "2024-01-01" "10:00:00") [] rfl
    (fun r hr => absurd hr (List.not_mem_nil r)) (by decide)

/-- C8: `generate_member_id` returns "1" when no numeric ID is present (in
particular on an empty table) and `str(max + 1)` otherwise; it always returns
the decimal representation of an integer strictly greater than every numeric
ID present; and a registration with a non-empty, non-duplicate explicit ID
adds exactly one row with that ID. -/
theorem claim_C8 (members : List Member)
    (idInput nm gender email mobile membership fee joinDate : String) :
    (memberNums members = [] → generate_member_id members = "1") ∧
    (∀ mx : Int, maxIntList (memberNums members) = some mx →
      generate_member_id members = toString (mx + 1)) ∧
    (∃ g : Int, generate_member_id members = toString g ∧
      ∀ m ∈ members, ∀ n : Int, pyInt? m.id = some n → n < g) ∧
    (pyStrip idInput ≠ "" → (∀ m ∈ members, m.id ≠ pyStrip idInput) →
      (register members idInput nm gender email mobile membership fee
          joinDate).members.length = members.length + 1 ∧
      List.countP (fun m => m.id == pyStrip idInput)
        (register members idInput nm gender email mobile membership fee
          joinDate).members = 1 ∧
      (register members idInput nm gender email mobile membership fee
        joinDate).registered = true) := by
  refine ⟨?_, ?_, generate_member_id_gt members, ?_⟩
  · intro hn
    unfold generate_member_id
    by_cases he : members.isEmpty = true
    · simp [he]
    · have he' : members.isEmpty = false := by
        cases hb : members.isEmpty
        · rfl
        · exact absurd hb he
      simp [he', hn, maxIntList]
  · intro mx hmx
    cases members with
    | nil => simp [memberNums, maxIntList] at hmx
    | cons a rest => simp [generate_member_id, hmx]
  · intro hne hnd
    have hid : (pyStrip idInput == "") = false := by
      rw [beq_eq_false_iff_ne]; exact hne
    have hany : members.any (fun m => m.id == pyStrip idInput) = false := by
      rw [List.any_eq_false]
      intro m hm
      simp [hnd m hm]
    have h0 : List.countP (fun m => m.id == pyStrip idInput) members = 0 :=
      List.countP_eq_zero.2 (fun m hm => by simp [hnd m hm])
    refine ⟨?_, ?_, ?_⟩
    · simp [register, hid, hany]
    · simp [register, hid, hany, List.countP_append, h0, List.countP_cons]
    · simp [register, hid, hany]

/-- Witness for C8: registering explicit ID "2" next to the existing member
"1" grows the table to two rows. -/
theorem claim_C8_witness :
    (register [wMember] "2" "Bob" "Male" "b@c.d" "88" "Monthly" "500"
      "2024-01-02").members.length = 2 :=
  ((claim_C8 [wMember] "2" "Bob" "Male" "b@c.d" "88" "Monthly" "500"
    "2024-01-02").2.2.2 (by decide) (by decide)).1

end Gym
